import Mathlib

/-!
Verification development for the MSVC dbghelp backtrace module
(`src/backtrace/dbghelp.rs`). The module drives the Windows stack-walking
protocol: it optionally suspends a target thread, captures its register
context, seeds a stack frame from the architecture's registers, and then
iterates one of two OS stack-walk entry points (`StackWalkEx` when present,
`StackWalk64` otherwise), invoking a caller-supplied callback once per frame.

The OS itself (dbghelp initialization, thread suspension, context capture,
and the per-step results of the stack-walk entry points) is external to the
module, so it is modelled as an oracle (`OSEnv`): a record of the outcomes
the OS would report. The Rust functions are embedded as pure Lean functions
over that oracle; each externally visible OS interaction is recorded as an
`Event`, so that the resume/suspend pairing, callback invocations, and
stack-walk calls of one `trace` call can be stated and proved as properties
of the resulting event list.
-/

namespace Backtrace

/-- Addressing-mode constant `AddrModeFlat` used by the dbghelp `ADDRESS64`
descriptors (numeric value 3 in the Windows headers; a zeroed descriptor has
mode 0, i.e. not flat). -/
def AddrModeFlat : Nat := 3

/-- Machine-type tag for x86_64, returned by `init_frame` on that target. -/
def IMAGE_FILE_MACHINE_AMD64 : Nat := 0x8664

/-- Machine-type tag for x86, returned by `init_frame` on that target. -/
def IMAGE_FILE_MACHINE_I386 : Nat := 0x014c

/-- Machine-type tag for AArch64, returned by `init_frame` on that target. -/
def IMAGE_FILE_MACHINE_ARM64 : Nat := 0xaa64

/-- Machine-type tag for 32-bit ARM, returned by `init_frame` on that target. -/
def IMAGE_FILE_MACHINE_ARMNT : Nat := 0x01c4

/-- Context-flags bit requesting the control registers (value as on x86_64). -/
def CONTEXT_CONTROL : Nat := 0x100001

/-- Context-flags bit requesting the integer registers (value as on x86_64). -/
def CONTEXT_INTEGER : Nat := 0x100002

/-- Modelled from the spec: the byte size of the OS `STACKFRAME_EX` struct
(`mem::size_of::<STACKFRAME_EX>()` in the source; the `windows` module that
declares the struct is an external collaborator). Only the identity of this
constant matters to the claims, never its numeric value. -/
def sizeof_STACKFRAME_EX : Nat := 272

/-- Modelled from the spec: the dbghelp `ADDRESS64` descriptor, an offset
plus an addressing-mode tag. -/
structure ADDRESS64 where
  Offset : Nat
  Mode : Nat
  deriving DecidableEq

/-- An all-zero `ADDRESS64`, as produced by `mem::zeroed()`. -/
def ADDRESS64.zeroed : ADDRESS64 := { Offset := 0, Mode := 0 }

/-- Modelled from the spec: the modern `STACKFRAME_EX` wire format used by
`StackWalkEx`. Scalar and aggregate fields that the module never reads are
kept as numeric payloads so that "the struct is zeroed" is expressible. -/
structure STACKFRAME_EX where
  AddrPC : ADDRESS64
  AddrReturn : ADDRESS64
  AddrFrame : ADDRESS64
  AddrStack : ADDRESS64
  AddrBStore : ADDRESS64
  FuncTableEntry : Nat
  Params : Nat × Nat × Nat × Nat
  Far : Nat
  Virtual : Nat
  Reserved : Nat × Nat × Nat
  KdHelp : Nat
  StackFrameSize : Nat
  InlineFrameContext : Nat
  deriving DecidableEq

/-- An all-zero `STACKFRAME_EX`, as produced by `mem::zeroed()`. -/
def STACKFRAME_EX.zeroed : STACKFRAME_EX :=
  { AddrPC := ADDRESS64.zeroed
    AddrReturn := ADDRESS64.zeroed
    AddrFrame := ADDRESS64.zeroed
    AddrStack := ADDRESS64.zeroed
    AddrBStore := ADDRESS64.zeroed
    FuncTableEntry := 0
    Params := (0, 0, 0, 0)
    Far := 0
    Virtual := 0
    Reserved := (0, 0, 0)
    KdHelp := 0
    StackFrameSize := 0
    InlineFrameContext := 0 }

/-- Modelled from the spec: the legacy `STACKFRAME64` wire format used by
`StackWalk64` (no `StackFrameSize` or inline-frame field). -/
structure STACKFRAME64 where
  AddrPC : ADDRESS64
  AddrReturn : ADDRESS64
  AddrFrame : ADDRESS64
  AddrStack : ADDRESS64
  AddrBStore : ADDRESS64
  FuncTableEntry : Nat
  Params : Nat × Nat × Nat × Nat
  Far : Nat
  Virtual : Nat
  Reserved : Nat × Nat × Nat
  KdHelp : Nat
  deriving DecidableEq

/-- An all-zero `STACKFRAME64`, as produced by `mem::zeroed()`. -/
def STACKFRAME64.zeroed : STACKFRAME64 :=
  { AddrPC := ADDRESS64.zeroed
    AddrReturn := ADDRESS64.zeroed
    AddrFrame := ADDRESS64.zeroed
    AddrStack := ADDRESS64.zeroed
    AddrBStore := ADDRESS64.zeroed
    FuncTableEntry := 0
    Params := (0, 0, 0, 0)
    Far := 0
    Virtual := 0
    Reserved := (0, 0, 0)
    KdHelp := 0 }

/-- The tagged union `StackFrame` of `dbghelp.rs`: the modern (`New`) or
legacy (`Old`) wire format. -/
inductive StackFrame where
  | New (f : STACKFRAME_EX)
  | Old (f : STACKFRAME64)
  deriving DecidableEq

/-- The `Frame` struct of `dbghelp.rs`: the active wire-format payload plus
the resolved module base address. -/
structure Frame where
  stack_frame : StackFrame
  base_address : Nat
  deriving DecidableEq

/-- Embeds `Frame::addr_pc`. -/
def Frame.addr_pc (s : Frame) : ADDRESS64 :=
  match s.stack_frame with
  | StackFrame.New f => f.AddrPC
  | StackFrame.Old f => f.AddrPC

/-- Embeds `Frame::addr_stack`. -/
def Frame.addr_stack (s : Frame) : ADDRESS64 :=
  match s.stack_frame with
  | StackFrame.New f => f.AddrStack
  | StackFrame.Old f => f.AddrStack

/-- Read counterpart of `Frame::addr_frame_mut` (the source only has the
mutable accessor; reading the same field). -/
def Frame.addr_frame (s : Frame) : ADDRESS64 :=
  match s.stack_frame with
  | StackFrame.New f => f.AddrFrame
  | StackFrame.Old f => f.AddrFrame

/-- Functional form of a write through `Frame::addr_pc_mut`. -/
def Frame.set_addr_pc (s : Frame) (a : ADDRESS64) : Frame :=
  match s.stack_frame with
  | StackFrame.New f => { s with stack_frame := StackFrame.New { f with AddrPC := a } }
  | StackFrame.Old f => { s with stack_frame := StackFrame.Old { f with AddrPC := a } }

/-- Functional form of a write through `Frame::addr_stack_mut`. -/
def Frame.set_addr_stack (s : Frame) (a : ADDRESS64) : Frame :=
  match s.stack_frame with
  | StackFrame.New f => { s with stack_frame := StackFrame.New { f with AddrStack := a } }
  | StackFrame.Old f => { s with stack_frame := StackFrame.Old { f with AddrStack := a } }

/-- Functional form of a write through `Frame::addr_frame_mut`. -/
def Frame.set_addr_frame (s : Frame) (a : ADDRESS64) : Frame :=
  match s.stack_frame with
  | StackFrame.New f => { s with stack_frame := StackFrame.New { f with AddrFrame := a } }
  | StackFrame.Old f => { s with stack_frame := StackFrame.Old { f with AddrFrame := a } }

/-- Embeds `Frame::ip`: the `AddrPC` offset. -/
def Frame.ip (s : Frame) : Nat := s.addr_pc.Offset

/-- Embeds `Frame::sp`: the `AddrStack` offset. -/
def Frame.sp (s : Frame) : Nat := s.addr_stack.Offset

/-- Embeds `Frame::symbol_address`: defined as `self.ip()` in the source. -/
def Frame.symbol_address (s : Frame) : Nat := s.ip

/-- Embeds `Frame::module_base_address`: `Some(self.base_address)`. -/
def Frame.module_base_address (s : Frame) : Option Nat := some s.base_address

/-- Discriminant observer: `true` exactly on the modern (`New`) variant. -/
def Frame.isNew (s : Frame) : Bool :=
  match s.stack_frame with
  | StackFrame.New _ => true
  | StackFrame.Old _ => false

/-- Modelled from the spec: the OS `CONTEXT` register snapshot is
architecture specific; this record is the union of the registers the four
`init_frame` variants read, plus the `ContextFlags` field the coordinator
writes. -/
structure CONTEXT where
  ContextFlags : Nat
  Rip : Nat
  Rsp : Nat
  Rbp : Nat
  Eip : Nat
  Esp : Nat
  Ebp : Nat
  Pc : Nat
  Sp : Nat
  Fp : Nat
  R11 : Nat
  deriving DecidableEq

/-- An all-zero `CONTEXT`, as produced by `mem::zeroed::<MyContext>()`. -/
def CONTEXT.zeroed : CONTEXT :=
  { ContextFlags := 0, Rip := 0, Rsp := 0, Rbp := 0, Eip := 0, Esp := 0,
    Ebp := 0, Pc := 0, Sp := 0, Fp := 0, R11 := 0 }

/-- The four target architectures for which `init_frame` is compiled
(`cfg(target_arch)` selection in the source). -/
inductive Arch where
  | x86_64
  | x86
  | aarch64
  | arm
  deriving DecidableEq

/-- Embeds the `cfg(target_arch = "x86_64")` `init_frame`: seeds PC/stack/
frame addresses from `Rip`/`Rsp`/`Rbp` with flat addressing and returns
`IMAGE_FILE_MACHINE_AMD64`. -/
def init_frame_x86_64 (frame : Frame) (ctx : CONTEXT) : Frame × Nat :=
  let frame := frame.set_addr_pc { Offset := ctx.Rip, Mode := AddrModeFlat }
  let frame := frame.set_addr_stack { Offset := ctx.Rsp, Mode := AddrModeFlat }
  let frame := frame.set_addr_frame { Offset := ctx.Rbp, Mode := AddrModeFlat }
  (frame, IMAGE_FILE_MACHINE_AMD64)

/-- Embeds the `cfg(target_arch = "x86")` `init_frame`: seeds from
`Eip`/`Esp`/`Ebp` and returns `IMAGE_FILE_MACHINE_I386`. -/
def init_frame_x86 (frame : Frame) (ctx : CONTEXT) : Frame × Nat :=
  let frame := frame.set_addr_pc { Offset := ctx.Eip, Mode := AddrModeFlat }
  let frame := frame.set_addr_stack { Offset := ctx.Esp, Mode := AddrModeFlat }
  let frame := frame.set_addr_frame { Offset := ctx.Ebp, Mode := AddrModeFlat }
  (frame, IMAGE_FILE_MACHINE_I386)

/-- Embeds the `cfg(target_arch = "aarch64")` `init_frame`: seeds from
`Pc`/`Sp`/`Fp` and returns `IMAGE_FILE_MACHINE_ARM64`. -/
def init_frame_aarch64 (frame : Frame) (ctx : CONTEXT) : Frame × Nat :=
  let frame := frame.set_addr_pc { Offset := ctx.Pc, Mode := AddrModeFlat }
  let frame := frame.set_addr_stack { Offset := ctx.Sp, Mode := AddrModeFlat }
  let frame := frame.set_addr_frame { Offset := ctx.Fp, Mode := AddrModeFlat }
  (frame, IMAGE_FILE_MACHINE_ARM64)

/-- Embeds the `cfg(target_arch = "arm")` `init_frame`: seeds from
`Pc`/`Sp`/`R11` and returns `IMAGE_FILE_MACHINE_ARMNT`. -/
def init_frame_arm (frame : Frame) (ctx : CONTEXT) : Frame × Nat :=
  let frame := frame.set_addr_pc { Offset := ctx.Pc, Mode := AddrModeFlat }
  let frame := frame.set_addr_stack { Offset := ctx.Sp, Mode := AddrModeFlat }
  let frame := frame.set_addr_frame { Offset := ctx.R11, Mode := AddrModeFlat }
  (frame, IMAGE_FILE_MACHINE_ARMNT)

/-- Dispatch over the compile-time architecture selection of `init_frame`. -/
def init_frame (arch : Arch) (frame : Frame) (ctx : CONTEXT) : Frame × Nat :=
  match arch with
  | Arch.x86_64 => init_frame_x86_64 frame ctx
  | Arch.x86 => init_frame_x86 frame ctx
  | Arch.aarch64 => init_frame_aarch64 frame ctx
  | Arch.arm => init_frame_arm frame ctx

/-- Which OS stack-walk entry point is being invoked: `StackWalkEx`
(modern) or `StackWalk64` (legacy). -/
inductive Strategy where
  | modern
  | legacy
  deriving DecidableEq

/-- Externally visible OS interactions of one `trace` call, in order. -/
inductive Event where
  | suspendThreadCall (thread : Nat)
  | resumeThreadCall (thread : Nat)
  | rtlCaptureContextCall
  | getThreadContextCall (thread : Nat)
  | stackWalkCall (strat : Strategy) (image : Nat) (frame : Frame)
  | callbackInvoke (frame : Frame) (ret : Bool)
  deriving DecidableEq

/-- Outcome the OS reports for one stack-walk call: failure (a non-`TRUE`
return), or success together with the frame addresses the OS writes back. -/
inductive WalkStep where
  | fail
  | ok (pc sp fp : Nat)
  deriving DecidableEq

/-- Oracle for the OS and the external dbghelp collaborator: the outcomes
every OS call of one `trace` invocation would report. `walkSteps` lists the
successive stack-walk results (an exhausted list is reported as a non-`TRUE`
return); `moduleBase` is the module-base lookup used by `get_module_base`. -/
structure OSEnv where
  dbghelpInitOk : Bool
  stackWalkExPresent : Bool
  currentThread : Nat
  suspendOk : Bool
  getThreadContextOk : Bool
  capturedContext : CONTEXT
  walkSteps : List WalkStep
  moduleBase : Nat → Nat

/-- Embeds `suspend_thread_and_capture_context`. For the calling thread
(the `GetCurrentThread()` pseudo-handle, modelled by `os.currentThread`, or
a null handle) the context is captured in place with `RtlCaptureContext`
and no resume is owed. Otherwise the thread is suspended; on suspension
failure `None` is returned with no compensating action; on
`GetThreadContext` failure the thread is resumed before returning `None`;
on success the context is returned with `do_resume = true`. The first
component lists the OS calls made. -/
def suspend_thread_and_capture_context (os : OSEnv) (thread : Nat) :
    List Event × Option (CONTEXT × Bool) :=
  if thread = os.currentThread ∨ thread = 0 then
    ([Event.rtlCaptureContextCall], some (os.capturedContext, false))
  else
    if os.suspendOk = false then
      ([Event.suspendThreadCall thread], none)
    else if os.getThreadContextOk = false then
      ([Event.suspendThreadCall thread, Event.getThreadContextCall thread,
        Event.resumeThreadCall thread], none)
    else
      ([Event.suspendThreadCall thread, Event.getThreadContextCall thread],
       some ({ os.capturedContext with
                ContextFlags := Nat.lor CONTEXT_CONTROL CONTEXT_INTEGER }, true))

/-- The frame addresses the OS writes back on a successful stack-walk step:
new PC, stack and frame offsets into whichever wire format is active. -/
def walkStepFrame (s : Frame) (pc sp fp : Nat) : Frame :=
  let s := s.set_addr_pc { Offset := pc, Mode := s.addr_pc.Mode }
  let s := s.set_addr_stack { Offset := sp, Mode := s.addr_stack.Mode }
  s.set_addr_frame { Offset := fp, Mode := s.addr_frame.Mode }

/-- The frame as it stands when the callback is invoked after a successful
stack-walk step: the OS has written the new addresses, and `base_address`
has been recomputed from the new program counter (`frame.ip()`) via
`get_module_base`. -/
def stepResultFrame (os : OSEnv) (frame : Frame) (pc sp fp : Nat) : Frame :=
  { walkStepFrame frame pc sp fp with
      base_address := os.moduleBase (Frame.ip (walkStepFrame frame pc sp fp)) }

/-- Embeds the `while StackWalkEx(...) == TRUE` / `while StackWalk64(...)
== TRUE` loop of `trace`: each iteration makes one OS stack-walk call; on
success the frame is updated, its `base_address` is recomputed from the new
program counter via `get_module_base`, and the callback is invoked; a
`false` callback return breaks out of the loop. -/
def walkLoop (os : OSEnv) (strat : Strategy) (image : Nat) (cb : Frame → Bool) :
    Frame → List WalkStep → List Event
  | frame, [] => [Event.stackWalkCall strat image frame]
  | frame, WalkStep.fail :: _ => [Event.stackWalkCall strat image frame]
  | frame, WalkStep.ok pc sp fp :: rest =>
    Event.stackWalkCall strat image frame ::
      Event.callbackInvoke (stepResultFrame os frame pc sp fp)
          (cb (stepResultFrame os frame pc sp fp)) ::
        (if cb (stepResultFrame os frame pc sp fp) = true then
          walkLoop os strat image cb (stepResultFrame os frame pc sp fp) rest
        else [])

/-- The initial frame of the modern branch of `trace`: a zeroed
`STACKFRAME_EX` whose `StackFrameSize` is set to the size of the struct. -/
def initialFrameNew : Frame :=
  { stack_frame :=
      StackFrame.New { STACKFRAME_EX.zeroed with StackFrameSize := sizeof_STACKFRAME_EX },
    base_address := 0 }

/-- The initial frame of the legacy branch of `trace`: a fully zeroed
`STACKFRAME64`. -/
def initialFrameOld : Frame :=
  { stack_frame := StackFrame.Old STACKFRAME64.zeroed, base_address := 0 }

/-- Embeds `trace`. Returns the ordered list of OS interactions of one
call; the function is total (the Rust `trace` returns `()` and surfaces no
error to the caller on any path). If dbghelp initialization fails the call
returns at once; otherwise the strategy is selected by the presence of
`StackWalkEx`; a capture failure aborts with no walking; on success the
walk loop runs and, when the coordinator suspended the target, exactly one
`ResumeThread` is issued after the loop ends. -/
def trace (os : OSEnv) (arch : Arch) (cb : Frame → Bool) (thread : Nat) :
    List Event :=
  if os.dbghelpInitOk = true then
    if os.stackWalkExPresent = true then
      match suspend_thread_and_capture_context os thread with
      | (evs, none) => evs
      | (evs, some (ctx, do_resume)) =>
        let fi := init_frame arch initialFrameNew ctx
        evs ++ walkLoop os Strategy.modern fi.2 cb fi.1 os.walkSteps ++
          (if do_resume = true then [Event.resumeThreadCall thread] else [])
    else
      match suspend_thread_and_capture_context os thread with
      | (evs, none) => evs
      | (evs, some (ctx, do_resume)) =>
        let fi := init_frame arch initialFrameOld ctx
        evs ++ walkLoop os Strategy.legacy fi.2 cb fi.1 os.walkSteps ++
          (if do_resume = true then [Event.resumeThreadCall thread] else [])
  else []

/-- Counts the events satisfying a Boolean predicate. -/
def countE (p : Event → Bool) : List Event → Nat
  | [] => 0
  | e :: rest => (if p e = true then 1 else 0) + countE p rest

/-- Recognizes a `ResumeThread` call on the given thread. -/
def isResumeOf (thread : Nat) : Event → Bool
  | Event.resumeThreadCall t => decide (t = thread)
  | _ => false

/-- Recognizes a callback invocation. -/
def isCallbackEvent : Event → Bool
  | Event.callbackInvoke _ _ => true
  | _ => false

/-- Recognizes an OS stack-walk call. -/
def isWalkCallEvent : Event → Bool
  | Event.stackWalkCall _ _ _ => true
  | _ => false

/-- Recognizes a callback invocation that returned `false` (a stop). -/
def isStopEvent : Event → Bool
  | Event.callbackInvoke _ r => !r
  | _ => false

/-- Number of `ResumeThread` calls on `thread` in an event list. -/
def countResume (thread : Nat) (l : List Event) : Nat := countE (isResumeOf thread) l

/-- Number of callback invocations in an event list. -/
def countCallback (l : List Event) : Nat := countE isCallbackEvent l

/-- Number of OS stack-walk calls in an event list. -/
def countWalkCalls (l : List Event) : Nat := countE isWalkCallEvent l

/-- Holds when, after every stop (a callback returning `false`), the rest
of the event list contains no OS stack-walk call and no further callback
invocation. -/
def noOsCallsAfterStop : List Event → Bool
  | [] => true
  | e :: rest =>
    (!isStopEvent e || (countWalkCalls rest == 0 && countCallback rest == 0)) &&
      noOsCallsAfterStop rest

/-- Length of the prefix of successful walk steps before the first
OS-reported failure (or the whole list when no step fails). -/
def okPrefixLen : List WalkStep → Nat
  | [] => 0
  | WalkStep.fail :: _ => 0
  | WalkStep.ok _ _ _ :: rest => okPrefixLen rest + 1

/-- Erases the three walk addresses of a frame (sets `AddrPC`, `AddrStack`
and `AddrFrame` to zero descriptors) and nothing else; equality of the
erasures of two frames states that they agree on every field other than
those three addresses. -/
def clearWalkAddrs (s : Frame) : Frame :=
  ((s.set_addr_pc ADDRESS64.zeroed).set_addr_stack ADDRESS64.zeroed).set_addr_frame
    ADDRESS64.zeroed

/-- Concrete oracle for witnesses: dbghelp available, `StackWalkEx`
present, cross-thread capture succeeds, the first stack-walk call already
reports exhaustion. Thread handle 1 plays the current-thread
pseudo-handle. -/
def osA : OSEnv :=
  { dbghelpInitOk := true, stackWalkExPresent := true, currentThread := 1,
    suspendOk := true, getThreadContextOk := true,
    capturedContext := CONTEXT.zeroed, walkSteps := [WalkStep.fail],
    moduleBase := fun _ => 0 }

/-- Concrete oracle for witnesses: like `osA` but with one successful walk
step before exhaustion and a nontrivial module-base lookup. -/
def osB : OSEnv :=
  { osA with walkSteps := [WalkStep.ok 5 6 7, WalkStep.fail],
             moduleBase := fun a => a + 100 }

/-- Concrete oracle for witnesses: like `osA` but thread suspension
fails. -/
def osC : OSEnv := { osA with suspendOk := false }

/-- Concrete oracle for witnesses: like `osA` but the context read fails
after a successful suspension. -/
def osD : OSEnv := { osA with getThreadContextOk := false }

/-- Helper: `countE` distributes over list append. -/
theorem countE_append (p : Event → Bool) (a b : List Event) :
    countE p (a ++ b) = countE p a + countE p b := by
  induction a with
  | nil => simp [countE]
  | cons e rest ih => simp [countE, ih, Nat.add_assoc]

/-- Helper: a list none of whose events satisfy `p` has `countE p` zero. -/
theorem countE_eq_zero (p : Event → Bool) :
    ∀ {l : List Event}, (∀ e ∈ l, p e = false) → countE p l = 0 := by
  intro l h
  induction l with
  | nil => rfl
  | cons e rest ih =>
    have he := h e (List.mem_cons_self e rest)
    have ht : countE p rest = 0 := ih (fun x hx => h x (List.mem_cons_of_mem e hx))
    simp [countE, he, ht]

/-- Helper: the OS walk step preserves the `Frame` discriminant. -/
theorem walkStepFrame_isNew (s : Frame) (pc sp fp : Nat) :
    (walkStepFrame s pc sp fp).isNew = s.isNew := by
  cases s with
  | mk sf b => cases sf <;> rfl

/-- Helper: updating `base_address` preserves the `Frame` discriminant. -/
theorem setBase_isNew (s : Frame) (b : Nat) :
    Frame.isNew { s with base_address := b } = s.isNew := rfl

/-- Helper: updating `base_address` does not change `Frame.ip`. -/
theorem setBase_ip (s : Frame) (b : Nat) :
    Frame.ip { s with base_address := b } = s.ip := rfl

/-- Helper: the callback-visible frame of a step keeps the discriminant. -/
theorem stepResultFrame_isNew (os : OSEnv) (f : Frame) (pc sp fp : Nat) :
    (stepResultFrame os f pc sp fp).isNew = f.isNew := by
  rw [stepResultFrame, setBase_isNew, walkStepFrame_isNew]

/-- Helper: the callback-visible frame of a step carries the module base
recomputed from its own program counter. -/
theorem stepResultFrame_base (os : OSEnv) (f : Frame) (pc sp fp : Nat) :
    (stepResultFrame os f pc sp fp).base_address =
      os.moduleBase ((stepResultFrame os f pc sp fp).ip) := rfl

/-- Helper: every event emitted by the walk loop is either a stack-walk
call with the selected strategy and machine tag on a frame of the initial
discriminant, or a callback invocation on such a frame whose base address
was recomputed from its own program counter. -/
theorem walkLoop_mem (os : OSEnv) (strat : Strategy) (image : Nat) (cb : Frame → Bool) :
    ∀ (steps : List WalkStep) (f : Frame) (e : Event),
      e ∈ walkLoop os strat image cb f steps →
      (∃ g, e = Event.stackWalkCall strat image g ∧ g.isNew = f.isNew) ∨
      (∃ g r, e = Event.callbackInvoke g r ∧ g.isNew = f.isNew ∧
        g.base_address = os.moduleBase g.ip) := by
  intro steps
  induction steps with
  | nil =>
    intro f e he
    simp only [walkLoop, List.mem_singleton] at he
    subst he
    exact Or.inl ⟨f, rfl, rfl⟩
  | cons s rest ih =>
    intro f e he
    cases s with
    | fail =>
      simp only [walkLoop, List.mem_singleton] at he
      subst he
      exact Or.inl ⟨f, rfl, rfl⟩
    | ok pc sp fp =>
      simp only [walkLoop] at he
      rcases List.mem_cons.mp he with rfl | he2
      · exact Or.inl ⟨f, rfl, rfl⟩
      rcases List.mem_cons.mp he2 with rfl | he3
      · exact Or.inr ⟨stepResultFrame os f pc sp fp, cb (stepResultFrame os f pc sp fp),
          rfl, stepResultFrame_isNew os f pc sp fp, stepResultFrame_base os f pc sp fp⟩
      cases hr : cb (stepResultFrame os f pc sp fp) with
      | false =>
        rw [hr] at he3
        simp at he3
      | true =>
        rw [hr] at he3
        simp only [if_pos rfl] at he3
        rcases ih (stepResultFrame os f pc sp fp) e he3 with
          ⟨g, hg, hn⟩ | ⟨g, r, hg, hn, hb⟩
        · exact Or.inl ⟨g, hg, by rw [hn, stepResultFrame_isNew]⟩
        · exact Or.inr ⟨g, r, hg, by rw [hn, stepResultFrame_isNew], hb⟩

/-- Helper: `trace` with a failed dbghelp initialization is the empty
event list. -/
theorem trace_init_failed (os : OSEnv) (arch : Arch) (cb : Frame → Bool) (thread : Nat)
    (h : os.dbghelpInitOk = false) : trace os arch cb thread = [] := by
  simp [trace, h]

/-- Helper: `trace` after a failed capture is exactly the coordinator's
events: no walking, no callback, no walker resume. -/
theorem trace_capture_failed (os : OSEnv) (arch : Arch) (cb : Frame → Bool) (thread : Nat)
    (evs : List Event) (hinit : os.dbghelpInitOk = true)
    (hsc : suspend_thread_and_capture_context os thread = (evs, none)) :
    trace os arch cb thread = evs := by
  cases hswe : os.stackWalkExPresent <;> simp [trace, hinit, hswe, hsc]

/-- Helper: `trace` after a successful capture in the modern branch is the
coordinator's events, then the walk loop seeded by `init_frame` on the
modern initial frame, then the resume owed when the target was suspended. -/
theorem trace_success_modern (os : OSEnv) (arch : Arch) (cb : Frame → Bool) (thread : Nat)
    (evs : List Event) (ctx : CONTEXT) (dr : Bool)
    (hinit : os.dbghelpInitOk = true) (hswe : os.stackWalkExPresent = true)
    (hsc : suspend_thread_and_capture_context os thread = (evs, some (ctx, dr))) :
    trace os arch cb thread =
      evs ++ walkLoop os Strategy.modern (init_frame arch initialFrameNew ctx).2 cb
          (init_frame arch initialFrameNew ctx).1 os.walkSteps ++
        (if dr = true then [Event.resumeThreadCall thread] else []) := by
  simp [trace, hinit, hswe, hsc]

/-- Helper: `trace` after a successful capture in the legacy branch is the
coordinator's events, then the walk loop seeded by `init_frame` on the
legacy initial frame, then the resume owed when the target was suspended. -/
theorem trace_success_legacy (os : OSEnv) (arch : Arch) (cb : Frame → Bool) (thread : Nat)
    (evs : List Event) (ctx : CONTEXT) (dr : Bool)
    (hinit : os.dbghelpInitOk = true) (hswe : os.stackWalkExPresent = false)
    (hsc : suspend_thread_and_capture_context os thread = (evs, some (ctx, dr))) :
    trace os arch cb thread =
      evs ++ walkLoop os Strategy.legacy (init_frame arch initialFrameOld ctx).2 cb
          (init_frame arch initialFrameOld ctx).1 os.walkSteps ++
        (if dr = true then [Event.resumeThreadCall thread] else []) := by
  simp [trace, hinit, hswe, hsc]

/-- Helper: every event the coordinator emits is a suspend, resume,
in-place capture, or context read; never a stack-walk call or a callback. -/
theorem capture_events_kinds (os : OSEnv) (thread : Nat) :
    ∀ e ∈ (suspend_thread_and_capture_context os thread).1,
      isCallbackEvent e = false ∧ isWalkCallEvent e = false ∧ isStopEvent e = false := by
  intro e he
  by_cases hcur : thread = os.currentThread ∨ thread = 0
  · simp [suspend_thread_and_capture_context, hcur] at he
    subst he
    exact ⟨rfl, rfl, rfl⟩
  · cases hs : os.suspendOk with
    | false =>
      simp [suspend_thread_and_capture_context, hcur, hs] at he
      subst he
      exact ⟨rfl, rfl, rfl⟩
    | true =>
      cases hg : os.getThreadContextOk with
      | false =>
        simp [suspend_thread_and_capture_context, hcur, hs, hg] at he
        rcases he with rfl | rfl | rfl <;> exact ⟨rfl, rfl, rfl⟩
      | true =>
        simp [suspend_thread_and_capture_context, hcur, hs, hg] at he
        rcases he with rfl | rfl <;> exact ⟨rfl, rfl, rfl⟩

/-- Helper: the coordinator's event list never contains a resume for a
thread it successfully captured (the resume in its context-read-failure
path accompanies a `none` result). -/
theorem capture_success_no_resume (os : OSEnv) (thread : Nat)
    (evs : List Event) (ctx : CONTEXT) (dr : Bool)
    (hsc : suspend_thread_and_capture_context os thread = (evs, some (ctx, dr))) :
    countResume thread evs = 0 := by
  by_cases hcur : thread = os.currentThread ∨ thread = 0
  · simp [suspend_thread_and_capture_context, hcur] at hsc
    rw [← hsc.1]
    rfl
  · cases hs : os.suspendOk with
    | false => simp [suspend_thread_and_capture_context, hcur, hs] at hsc
    | true =>
      cases hg : os.getThreadContextOk with
      | false => simp [suspend_thread_and_capture_context, hcur, hs, hg] at hsc
      | true =>
        simp [suspend_thread_and_capture_context, hcur, hs, hg] at hsc
        rw [← hsc.1]
        simp [countResume, countE, isResumeOf]

/-- Helper: the walk loop never issues a thread resume. -/
theorem walkLoop_no_resume (os : OSEnv) (strat : Strategy) (image : Nat)
    (cb : Frame → Bool) (steps : List WalkStep) (f : Frame) (thread : Nat) :
    countResume thread (walkLoop os strat image cb f steps) = 0 := by
  apply countE_eq_zero
  intro e he
  rcases walkLoop_mem os strat image cb steps f e he with ⟨g, hg, _⟩ | ⟨g, r, hg, _, _⟩ <;>
    subst hg <;> rfl

/-- Helper: the coordinator result on the calling thread (pseudo-handle or
null): in-place capture, no suspension, no resume owed. -/
theorem capture_eq_current (os : OSEnv) (thread : Nat)
    (h : thread = os.currentThread ∨ thread = 0) :
    suspend_thread_and_capture_context os thread =
      ([Event.rtlCaptureContextCall], some (os.capturedContext, false)) := by
  simp only [suspend_thread_and_capture_context]
  rw [if_pos h]

/-- Helper: the coordinator result when suspension of another thread
fails: one suspend attempt, no compensating resume, `none`. -/
theorem capture_eq_suspend_failed (os : OSEnv) (thread : Nat)
    (h : ¬(thread = os.currentThread ∨ thread = 0)) (hs : os.suspendOk = false) :
    suspend_thread_and_capture_context os thread =
      ([Event.suspendThreadCall thread], none) := by
  simp only [suspend_thread_and_capture_context]
  rw [if_neg h, if_pos hs]

/-- Helper: the coordinator result when the context read fails after a
successful suspension: suspend, context read, then a resume, and `none`. -/
theorem capture_eq_ctx_failed (os : OSEnv) (thread : Nat)
    (h : ¬(thread = os.currentThread ∨ thread = 0)) (hs : os.suspendOk = true)
    (hg : os.getThreadContextOk = false) :
    suspend_thread_and_capture_context os thread =
      ([Event.suspendThreadCall thread, Event.getThreadContextCall thread,
        Event.resumeThreadCall thread], none) := by
  simp only [suspend_thread_and_capture_context]
  rw [if_neg h, if_neg (by simp [hs]), if_pos hg]

/-- Helper: the coordinator result on a successful cross-thread capture:
suspend then context read, the captured context, and a resume owed. -/
theorem capture_eq_success (os : OSEnv) (thread : Nat)
    (h : ¬(thread = os.currentThread ∨ thread = 0)) (hs : os.suspendOk = true)
    (hg : os.getThreadContextOk = true) :
    suspend_thread_and_capture_context os thread =
      ([Event.suspendThreadCall thread, Event.getThreadContextCall thread],
       some ({ os.capturedContext with
                ContextFlags := Nat.lor CONTEXT_CONTROL CONTEXT_INTEGER }, true)) := by
  simp only [suspend_thread_and_capture_context]
  rw [if_neg h, if_neg (by simp [hs]), if_neg (by simp [hg])]

/-- Helper: `countWalkCalls` distributes over append. -/
theorem countWalkCalls_append (a b : List Event) :
    countWalkCalls (a ++ b) = countWalkCalls a + countWalkCalls b :=
  countE_append _ a b

/-- Helper: `countCallback` distributes over append. -/
theorem countCallback_append (a b : List Event) :
    countCallback (a ++ b) = countCallback a + countCallback b :=
  countE_append _ a b

/-- Helper: `countResume` distributes over append. -/
theorem countResume_append (thread : Nat) (a b : List Event) :
    countResume thread (a ++ b) = countResume thread a + countResume thread b :=
  countE_append _ a b

/-- Helper: the coordinator's event list contains no callback invocation
and no stack-walk call. -/
theorem capture_no_callback_walk (os : OSEnv) (thread : Nat) :
    countCallback (suspend_thread_and_capture_context os thread).1 = 0 ∧
    countWalkCalls (suspend_thread_and_capture_context os thread).1 = 0 := by
  refine ⟨countE_eq_zero _ ?_, countE_eq_zero _ ?_⟩
  · intro e he
    exact (capture_events_kinds os thread e he).1
  · intro e he
    exact (capture_events_kinds os thread e he).2.1

/-- Helper: a stop event is in particular a callback event. -/
theorem isStop_imp_isCallback (e : Event) :
    isStopEvent e = true → isCallbackEvent e = true := by
  cases e <;> simp [isStopEvent, isCallbackEvent]

/-- Helper: prepending events that contain no callback invocation
preserves `noOsCallsAfterStop`. -/
theorem noOsCallsAfterStop_append_left (a l : List Event) (ha : countCallback a = 0)
    (hl : noOsCallsAfterStop l = true) : noOsCallsAfterStop (a ++ l) = true := by
  induction a with
  | nil => simpa using hl
  | cons e rest ih =>
    cases hcb : isCallbackEvent e with
    | true =>
      exfalso
      simp [countCallback, countE, hcb] at ha
    | false =>
      have hrest : countCallback rest = 0 := by
        simpa [countCallback, countE, hcb] using ha
      have hstop : isStopEvent e = false := by
        cases hse : isStopEvent e
        · rfl
        · exact absurd (isStop_imp_isCallback e hse) (by simp [hcb])
      simp [noOsCallsAfterStop, hstop, ih hrest]

/-- Helper: appending events that contain no stack-walk call and no
callback invocation preserves `noOsCallsAfterStop`. -/
theorem noOsCallsAfterStop_append_right (l c : List Event)
    (hl : noOsCallsAfterStop l = true) (hcw : countWalkCalls c = 0)
    (hcc : countCallback c = 0) (hc : noOsCallsAfterStop c = true) :
    noOsCallsAfterStop (l ++ c) = true := by
  induction l with
  | nil => simpa using hc
  | cons e rest ih =>
    simp only [noOsCallsAfterStop, Bool.and_eq_true] at hl
    obtain ⟨hcond, hrest⟩ := hl
    simp only [List.cons_append, noOsCallsAfterStop, Bool.and_eq_true]
    refine ⟨?_, ih hrest⟩
    cases hse : isStopEvent e with
    | false => simp
    | true =>
      have h2 : countWalkCalls rest = 0 ∧ countCallback rest = 0 := by
        simpa [hse] using hcond
      have hw : countWalkCalls (rest ++ c) = 0 := by
        rw [countWalkCalls_append, h2.1, hcw]
      have hb : countCallback (rest ++ c) = 0 := by
        rw [countCallback_append, h2.2, hcc]
      simp [hw, hb]

/-- Helper: the event list of the walk loop satisfies
`noOsCallsAfterStop`: once the callback returns `false`, the loop makes no
further OS stack-walk call and no further callback invocation. -/
theorem walkLoop_noStop (os : OSEnv) (strat : Strategy) (image : Nat) (cb : Frame → Bool) :
    ∀ (steps : List WalkStep) (f : Frame),
      noOsCallsAfterStop (walkLoop os strat image cb f steps) = true := by
  intro steps
  induction steps with
  | nil =>
    intro f
    rfl
  | cons s rest ih =>
    intro f
    cases s with
    | fail => rfl
    | ok pc sp fp =>
      cases hr : cb (stepResultFrame os f pc sp fp) with
      | false =>
        simp [walkLoop, hr, noOsCallsAfterStop, isStopEvent, countWalkCalls,
          countCallback, countE]
      | true =>
        simp [walkLoop, hr, noOsCallsAfterStop, isStopEvent,
          ih (stepResultFrame os f pc sp fp)]

/-- Helper: with a callback that never stops, the walk loop makes exactly
one OS stack-walk call per successful step plus the final failing one. -/
theorem walkLoop_count_all_true (os : OSEnv) (strat : Strategy) (image : Nat)
    (cb : Frame → Bool) (hcb : ∀ g, cb g = true) :
    ∀ (steps : List WalkStep) (f : Frame),
      countWalkCalls (walkLoop os strat image cb f steps) = okPrefixLen steps + 1 := by
  intro steps
  induction steps with
  | nil =>
    intro f
    rfl
  | cons s rest ih =>
    intro f
    cases s with
    | fail => rfl
    | ok pc sp fp =>
      have hstep := ih (stepResultFrame os f pc sp fp)
      simp [walkLoop, hcb, countWalkCalls, countE, isWalkCallEvent, okPrefixLen] at hstep ⊢
      omega

/-- Helper: an event list with no callback invocation vacuously satisfies
`noOsCallsAfterStop`. -/
theorem noOsCallsAfterStop_of_no_callbacks (a : List Event) (ha : countCallback a = 0) :
    noOsCallsAfterStop a = true := by
  have h := noOsCallsAfterStop_append_left a [] ha rfl
  simpa using h

/-- Helper: `init_frame` preserves the `Frame` discriminant on every
architecture. -/
theorem init_frame_isNew (arch : Arch) (s : Frame) (ctx : CONTEXT) :
    (init_frame arch s ctx).1.isNew = s.isNew := by
  cases s with
  | mk sf b => cases arch <;> cases sf <;> rfl

/-- Helper: an event of a full successful-capture `trace` body is a
coordinator event, a walk-loop event, or the final resume. -/
theorem mem_trace_parts (os : OSEnv) (thread : Nat) (strat : Strategy) (image : Nat)
    (cb : Frame → Bool) (f0 : Frame) (dr : Bool) (e : Event)
    (he : e ∈ (suspend_thread_and_capture_context os thread).1 ++
      walkLoop os strat image cb f0 os.walkSteps ++
      (if dr = true then [Event.resumeThreadCall thread] else [])) :
    e ∈ (suspend_thread_and_capture_context os thread).1 ∨
    e ∈ walkLoop os strat image cb f0 os.walkSteps ∨
    e = Event.resumeThreadCall thread := by
  rcases List.mem_append.mp he with he1 | he2
  · rcases List.mem_append.mp he1 with h | h
    exacts [Or.inl h, Or.inr (Or.inl h)]
  · cases dr with
    | true =>
      simp at he2
      exact Or.inr (Or.inr he2)
    | false => simp at he2

/-- Helper: a coordinator event is neither a stack-walk call nor a
callback invocation. -/
theorem capture_event_not_walk_not_callback (os : OSEnv) (thread : Nat) (e : Event)
    (he : e ∈ (suspend_thread_and_capture_context os thread).1) :
    (∀ s i g, e ≠ Event.stackWalkCall s i g) ∧
    (∀ g r, e ≠ Event.callbackInvoke g r) := by
  have hk := capture_events_kinds os thread e he
  constructor
  · intro s i g hg
    rw [hg] at hk
    simpa [isWalkCallEvent] using hk.2.1
  · intro g r hg
    rw [hg] at hk
    simpa [isCallbackEvent] using hk.1

/-- Helper: after a successful capture that suspended the target, the
trace ends with exactly one resume of the target, whatever the callback
and the walk outcomes were. -/
theorem trace_success_resume_last (os : OSEnv) (arch : Arch) (cb : Frame → Bool)
    (thread : Nat) (evs : List Event) (ctx : CONTEXT)
    (hinit : os.dbghelpInitOk = true)
    (hsc : suspend_thread_and_capture_context os thread = (evs, some (ctx, true)))
    (hevs : countResume thread evs = 0) :
    ∃ pre, trace os arch cb thread = pre ++ [Event.resumeThreadCall thread] ∧
      countResume thread pre = 0 := by
  cases hswe : os.stackWalkExPresent with
  | true =>
    refine ⟨evs ++ walkLoop os Strategy.modern (init_frame arch initialFrameNew ctx).2 cb
      (init_frame arch initialFrameNew ctx).1 os.walkSteps, ?_, ?_⟩
    · rw [trace_success_modern os arch cb thread evs ctx true hinit hswe hsc]
      simp
    · rw [countResume_append, hevs, walkLoop_no_resume]
  | false =>
    refine ⟨evs ++ walkLoop os Strategy.legacy (init_frame arch initialFrameOld ctx).2 cb
      (init_frame arch initialFrameOld ctx).1 os.walkSteps, ?_, ?_⟩
    · rw [trace_success_legacy os arch cb thread evs ctx true hinit hswe hsc]
      simp
    · rw [countResume_append, hevs, walkLoop_no_resume]

/-- C10: for every `Frame`, whichever variant is active,
`symbol_address()` returns the same value as `ip()` (the `AddrPC` offset),
and `module_base_address()` always returns `Some` of the stored base
address, never `None`. -/
theorem frame_accessors_uniform (f : Frame) :
    f.symbol_address = f.ip ∧ f.ip = f.addr_pc.Offset ∧
    f.module_base_address = some f.base_address ∧
    f.module_base_address ≠ none :=
  ⟨rfl, rfl, rfl, by simp [Frame.module_base_address]⟩

/-- Helper: claim C7 for the x86_64 `init_frame` variant. -/
theorem init_frame_x86_64_spec (f : Frame) (ctx : CONTEXT) :
    (init_frame_x86_64 f ctx).1.addr_pc = { Offset := ctx.Rip, Mode := AddrModeFlat } ∧
    (init_frame_x86_64 f ctx).1.addr_stack = { Offset := ctx.Rsp, Mode := AddrModeFlat } ∧
    (init_frame_x86_64 f ctx).1.addr_frame = { Offset := ctx.Rbp, Mode := AddrModeFlat } ∧
    clearWalkAddrs (init_frame_x86_64 f ctx).1 = clearWalkAddrs f ∧
    (init_frame_x86_64 f ctx).2 = IMAGE_FILE_MACHINE_AMD64 := by
  cases f with
  | mk sf b => cases sf <;> exact ⟨rfl, rfl, rfl, rfl, rfl⟩

/-- Helper: claim C7 for the x86 `init_frame` variant. -/
theorem init_frame_x86_spec (f : Frame) (ctx : CONTEXT) :
    (init_frame_x86 f ctx).1.addr_pc = { Offset := ctx.Eip, Mode := AddrModeFlat } ∧
    (init_frame_x86 f ctx).1.addr_stack = { Offset := ctx.Esp, Mode := AddrModeFlat } ∧
    (init_frame_x86 f ctx).1.addr_frame = { Offset := ctx.Ebp, Mode := AddrModeFlat } ∧
    clearWalkAddrs (init_frame_x86 f ctx).1 = clearWalkAddrs f ∧
    (init_frame_x86 f ctx).2 = IMAGE_FILE_MACHINE_I386 := by
  cases f with
  | mk sf b => cases sf <;> exact ⟨rfl, rfl, rfl, rfl, rfl⟩

/-- Helper: claim C7 for the aarch64 `init_frame` variant. -/
theorem init_frame_aarch64_spec (f : Frame) (ctx : CONTEXT) :
    (init_frame_aarch64 f ctx).1.addr_pc = { Offset := ctx.Pc, Mode := AddrModeFlat } ∧
    (init_frame_aarch64 f ctx).1.addr_stack = { Offset := ctx.Sp, Mode := AddrModeFlat } ∧
    (init_frame_aarch64 f ctx).1.addr_frame = { Offset := ctx.Fp, Mode := AddrModeFlat } ∧
    clearWalkAddrs (init_frame_aarch64 f ctx).1 = clearWalkAddrs f ∧
    (init_frame_aarch64 f ctx).2 = IMAGE_FILE_MACHINE_ARM64 := by
  cases f with
  | mk sf b => cases sf <;> exact ⟨rfl, rfl, rfl, rfl, rfl⟩

/-- Helper: claim C7 for the arm `init_frame` variant. -/
theorem init_frame_arm_spec (f : Frame) (ctx : CONTEXT) :
    (init_frame_arm f ctx).1.addr_pc = { Offset := ctx.Pc, Mode := AddrModeFlat } ∧
    (init_frame_arm f ctx).1.addr_stack = { Offset := ctx.Sp, Mode := AddrModeFlat } ∧
    (init_frame_arm f ctx).1.addr_frame = { Offset := ctx.R11, Mode := AddrModeFlat } ∧
    clearWalkAddrs (init_frame_arm f ctx).1 = clearWalkAddrs f ∧
    (init_frame_arm f ctx).2 = IMAGE_FILE_MACHINE_ARMNT := by
  cases f with
  | mk sf b => cases sf <;> exact ⟨rfl, rfl, rfl, rfl, rfl⟩

/-- C7: for every captured context and every supported architecture,
`init_frame` writes exactly the architecture's instruction-pointer,
stack-pointer and frame/base-pointer registers into the frame's `AddrPC`,
`AddrStack` and `AddrFrame` slots, sets all three addressing modes to
`AddrModeFlat`, returns the fixed per-architecture machine-type constant,
and modifies nothing else (the frames agree after erasing the three walk
addresses); the function is total, with no error path. -/
theorem init_frame_arch_contract (f : Frame) (ctx : CONTEXT) :
    ((init_frame_x86_64 f ctx).1.addr_pc = { Offset := ctx.Rip, Mode := AddrModeFlat } ∧
     (init_frame_x86_64 f ctx).1.addr_stack = { Offset := ctx.Rsp, Mode := AddrModeFlat } ∧
     (init_frame_x86_64 f ctx).1.addr_frame = { Offset := ctx.Rbp, Mode := AddrModeFlat } ∧
     clearWalkAddrs (init_frame_x86_64 f ctx).1 = clearWalkAddrs f ∧
     (init_frame_x86_64 f ctx).2 = IMAGE_FILE_MACHINE_AMD64) ∧
    ((init_frame_x86 f ctx).1.addr_pc = { Offset := ctx.Eip, Mode := AddrModeFlat } ∧
     (init_frame_x86 f ctx).1.addr_stack = { Offset := ctx.Esp, Mode := AddrModeFlat } ∧
     (init_frame_x86 f ctx).1.addr_frame = { Offset := ctx.Ebp, Mode := AddrModeFlat } ∧
     clearWalkAddrs (init_frame_x86 f ctx).1 = clearWalkAddrs f ∧
     (init_frame_x86 f ctx).2 = IMAGE_FILE_MACHINE_I386) ∧
    ((init_frame_aarch64 f ctx).1.addr_pc = { Offset := ctx.Pc, Mode := AddrModeFlat } ∧
     (init_frame_aarch64 f ctx).1.addr_stack = { Offset := ctx.Sp, Mode := AddrModeFlat } ∧
     (init_frame_aarch64 f ctx).1.addr_frame = { Offset := ctx.Fp, Mode := AddrModeFlat } ∧
     clearWalkAddrs (init_frame_aarch64 f ctx).1 = clearWalkAddrs f ∧
     (init_frame_aarch64 f ctx).2 = IMAGE_FILE_MACHINE_ARM64) ∧
    ((init_frame_arm f ctx).1.addr_pc = { Offset := ctx.Pc, Mode := AddrModeFlat } ∧
     (init_frame_arm f ctx).1.addr_stack = { Offset := ctx.Sp, Mode := AddrModeFlat } ∧
     (init_frame_arm f ctx).1.addr_frame = { Offset := ctx.R11, Mode := AddrModeFlat } ∧
     clearWalkAddrs (init_frame_arm f ctx).1 = clearWalkAddrs f ∧
     (init_frame_arm f ctx).2 = IMAGE_FILE_MACHINE_ARMNT) :=
  ⟨init_frame_x86_64_spec f ctx, init_frame_x86_spec f ctx,
   init_frame_aarch64_spec f ctx, init_frame_arm_spec f ctx⟩

/-- C9: the frame of the selected variant starts from an all-zero payload;
only the modern (`New`) variant gets its `StackFrameSize` field set, to the
size of `STACKFRAME_EX`; the legacy (`Old`) frame is left fully zeroed. -/
theorem initial_frames_zeroed :
    (∃ s, initialFrameNew.stack_frame = StackFrame.New s ∧
      s.AddrPC = ADDRESS64.zeroed ∧ s.AddrReturn = ADDRESS64.zeroed ∧
      s.AddrFrame = ADDRESS64.zeroed ∧ s.AddrStack = ADDRESS64.zeroed ∧
      s.AddrBStore = ADDRESS64.zeroed ∧ s.FuncTableEntry = 0 ∧
      s.Params = (0, 0, 0, 0) ∧ s.Far = 0 ∧ s.Virtual = 0 ∧
      s.Reserved = (0, 0, 0) ∧ s.KdHelp = 0 ∧
      s.StackFrameSize = sizeof_STACKFRAME_EX ∧ s.InlineFrameContext = 0) ∧
    initialFrameNew.base_address = 0 ∧
    initialFrameOld.stack_frame = StackFrame.Old STACKFRAME64.zeroed ∧
    initialFrameOld.base_address = 0 :=
  ⟨⟨{ STACKFRAME_EX.zeroed with StackFrameSize := sizeof_STACKFRAME_EX },
    rfl, rfl, rfl, rfl, rfl, rfl, rfl, rfl, rfl, rfl, rfl, rfl, rfl, rfl⟩,
   rfl, rfl, rfl⟩

/-- C5: a thread identity denoting the calling thread — the current-thread
pseudo-handle or a null handle — is captured in place (`RtlCaptureContext`
is the only OS call, no suspension) with `mustResume = false`; any other
value takes the suspend-then-read path, whose first OS call is
`SuspendThread`. -/
theorem capture_dispatch (os : OSEnv) (thread : Nat) :
    (thread = os.currentThread ∨ thread = 0 →
      suspend_thread_and_capture_context os thread =
        ([Event.rtlCaptureContextCall], some (os.capturedContext, false))) ∧
    (thread ≠ os.currentThread → thread ≠ 0 →
      ∃ rest res, suspend_thread_and_capture_context os thread =
        (Event.suspendThreadCall thread :: rest, res)) := by
  constructor
  · exact capture_eq_current os thread
  · intro h1 h2
    have h : ¬(thread = os.currentThread ∨ thread = 0) := by
      rintro (hx | hx)
      exacts [h1 hx, h2 hx]
    cases hs : os.suspendOk with
    | false => exact ⟨[], none, capture_eq_suspend_failed os thread h hs⟩
    | true =>
      cases hg : os.getThreadContextOk with
      | false => exact ⟨_, _, capture_eq_ctx_failed os thread h hs hg⟩
      | true => exact ⟨_, _, capture_eq_success os thread h hs hg⟩

/-- Witness for C5: the null handle is captured in place on `osA`, and the
distinct handle 5 enters the suspend path. -/
theorem capture_dispatch_witness :
    ((0 = osA.currentThread ∨ (0 : Nat) = 0) ∧
      suspend_thread_and_capture_context osA 0 =
        ([Event.rtlCaptureContextCall], some (osA.capturedContext, false))) ∧
    (((5 : Nat) ≠ osA.currentThread) ∧ ((5 : Nat) ≠ 0) ∧
      ∃ rest res, suspend_thread_and_capture_context osA 5 =
        (Event.suspendThreadCall 5 :: rest, res)) :=
  ⟨⟨Or.inr rfl, (capture_dispatch osA 0).1 (Or.inr rfl)⟩,
   ⟨by decide, by decide, (capture_dispatch osA 5).2 (by decide) (by decide)⟩⟩

/-- C6: when `SuspendThread` succeeds but `GetThreadContext` fails on a
non-current thread, the coordinator resumes the target exactly once before
returning the failure (`none`), so no suspended thread is leaked on the
context-read-failure path. -/
theorem capture_ctx_read_failure_resumes (os : OSEnv) (thread : Nat)
    (h1 : thread ≠ os.currentThread) (h2 : thread ≠ 0)
    (hs : os.suspendOk = true) (hg : os.getThreadContextOk = false) :
    suspend_thread_and_capture_context os thread =
      ([Event.suspendThreadCall thread, Event.getThreadContextCall thread,
        Event.resumeThreadCall thread], none) ∧
    countResume thread (suspend_thread_and_capture_context os thread).1 = 1 := by
  have h : ¬(thread = os.currentThread ∨ thread = 0) := by
    rintro (hx | hx)
    exacts [h1 hx, h2 hx]
  have he := capture_eq_ctx_failed os thread h hs hg
  refine ⟨he, ?_⟩
  rw [he]
  simp [countResume, countE, isResumeOf]

/-- Witness for C6: on `osD` (context read fails) with thread 2 the
coordinator suspends, fails the read, resumes once and returns `none`. -/
theorem capture_ctx_read_failure_resumes_witness :
    suspend_thread_and_capture_context osD 2 =
      ([Event.suspendThreadCall 2, Event.getThreadContextCall 2,
        Event.resumeThreadCall 2], none) ∧
    countResume 2 (suspend_thread_and_capture_context osD 2).1 = 1 :=
  capture_ctx_read_failure_resumes osD 2 (by decide) (by decide) rfl rfl

/-- C1: for a `trace` of a thread other than the calling thread, the
walker issues `ResumeThread` on the target exactly once — as the last
event, after the walk loop ends — precisely when the coordinator returned
`do_resume = true`, and this holds on every exit path of the loop (the
callback and the walk outcomes are universally quantified). When
suspension failed, no resume is ever attempted; when the context read
failed, the single resume is the coordinator's own, issued before any
walking and with the callback never invoked. -/
theorem trace_resume_contract (os : OSEnv) (arch : Arch) (cb : Frame → Bool)
    (thread : Nat) (hne : thread ≠ os.currentThread) (hnz : thread ≠ 0)
    (hinit : os.dbghelpInitOk = true) :
    (os.suspendOk = true → os.getThreadContextOk = true →
      ∃ pre, trace os arch cb thread = pre ++ [Event.resumeThreadCall thread] ∧
        countResume thread pre = 0) ∧
    (os.suspendOk = false →
      countResume thread (trace os arch cb thread) = 0) ∧
    (os.suspendOk = true → os.getThreadContextOk = false →
      countResume thread (trace os arch cb thread) = 1 ∧
      countWalkCalls (trace os arch cb thread) = 0 ∧
      countCallback (trace os arch cb thread) = 0) := by
  have h : ¬(thread = os.currentThread ∨ thread = 0) := by
    rintro (hx | hx)
    exacts [hne hx, hnz hx]
  refine ⟨?_, ?_, ?_⟩
  · intro hs hg
    have hsc := capture_eq_success os thread h hs hg
    exact trace_success_resume_last os arch cb thread _ _ hinit hsc
      (capture_success_no_resume os thread _ _ _ hsc)
  · intro hs
    have hsc := capture_eq_suspend_failed os thread h hs
    rw [trace_capture_failed os arch cb thread _ hinit hsc]
    simp [countResume, countE, isResumeOf]
  · intro hs hg
    have hsc := capture_eq_ctx_failed os thread h hs hg
    rw [trace_capture_failed os arch cb thread _ hinit hsc]
    refine ⟨?_, ?_, ?_⟩ <;>
      simp [countResume, countCallback, countWalkCalls, countE, isResumeOf,
        isCallbackEvent, isWalkCallEvent]

/-- Witness for C1: on `osA` with target thread 2, the trace ends with the
single resume of thread 2. -/
theorem trace_resume_contract_witness :
    ((2 : Nat) ≠ osA.currentThread) ∧ ((2 : Nat) ≠ 0) ∧
    osA.dbghelpInitOk = true ∧ osA.suspendOk = true ∧
    osA.getThreadContextOk = true ∧
    (∃ pre, trace osA Arch.x86_64 (fun _ => true) 2 =
        pre ++ [Event.resumeThreadCall 2] ∧ countResume 2 pre = 0) :=
  ⟨by decide, by decide, rfl, rfl, rfl,
   (trace_resume_contract osA Arch.x86_64 (fun _ => true) 2
      (by decide) (by decide) rfl).1 rfl rfl⟩

/-- C2: when dbghelp initialization fails, or context capture fails
(`SuspendFailed` or `ContextReadFailed`), `trace` delivers zero frames:
the callback is never invoked (and no OS walking happens at all). No error
reaches the caller on these paths: `trace` is total and returns only its
event list, exactly as the Rust `trace` returns `()`. -/
theorem trace_silent_failure (os : OSEnv) (arch : Arch) (cb : Frame → Bool)
    (thread : Nat)
    (h : os.dbghelpInitOk = false ∨
      (thread ≠ os.currentThread ∧ thread ≠ 0 ∧
        (os.suspendOk = false ∨ os.getThreadContextOk = false))) :
    countCallback (trace os arch cb thread) = 0 ∧
    countWalkCalls (trace os arch cb thread) = 0 := by
  by_cases hinit : os.dbghelpInitOk = true
  case neg =>
    rw [trace_init_failed os arch cb thread (by simpa using hinit)]
    exact ⟨rfl, rfl⟩
  case pos =>
  rcases h with hbad | ⟨h1, h2, hcap⟩
  · rw [hbad] at hinit
    cases hinit
  have hno : ¬(thread = os.currentThread ∨ thread = 0) := by
    rintro (hx | hx)
    exacts [h1 hx, h2 hx]
  have key : ∀ evs, suspend_thread_and_capture_context os thread = (evs, none) →
      countCallback (trace os arch cb thread) = 0 ∧
      countWalkCalls (trace os arch cb thread) = 0 := by
    intro evs hsc
    rw [trace_capture_failed os arch cb thread evs hinit hsc]
    have hcw := capture_no_callback_walk os thread
    rw [hsc] at hcw
    exact hcw
  cases hs : os.suspendOk with
  | false => exact key _ (capture_eq_suspend_failed os thread hno hs)
  | true =>
    rcases hcap with hbad | hg
    · rw [hbad] at hs
      cases hs
    · exact key _ (capture_eq_ctx_failed os thread hno hs hg)

/-- Witness for C2: on `osC` (suspension fails) with target thread 2 the
callback is never invoked and no walking happens. -/
theorem trace_silent_failure_witness :
    ((2 : Nat) ≠ osC.currentThread ∧ (2 : Nat) ≠ 0 ∧
      (osC.suspendOk = false ∨ osC.getThreadContextOk = false)) ∧
    countCallback (trace osC Arch.x86_64 (fun _ => true) 2) = 0 ∧
    countWalkCalls (trace osC Arch.x86_64 (fun _ => true) 2) = 0 :=
  ⟨⟨by decide, by decide, Or.inl rfl⟩,
   trace_silent_failure osC Arch.x86_64 (fun _ => true) 2
     (Or.inr ⟨by decide, by decide, Or.inl rfl⟩)⟩

/-- C3: the `StackFrame` variant is selected once per `trace` call — `New`
exactly when `StackWalkEx` is present, `Old` otherwise — every stack-walk
call of that trace uses the matching entry point (modern with a `New`
frame, legacy with an `Old` frame, never mixed), and every frame handed to
the callback has that same fixed discriminant. -/
theorem trace_strategy_fixed (os : OSEnv) (arch : Arch) (cb : Frame → Bool)
    (thread : Nat) :
    ∀ e ∈ trace os arch cb thread,
      (∀ s i g, e = Event.stackWalkCall s i g →
        (s = Strategy.modern ↔ os.stackWalkExPresent = true) ∧
        g.isNew = os.stackWalkExPresent) ∧
      (∀ g r, e = Event.callbackInvoke g r →
        g.isNew = os.stackWalkExPresent) := by
  intro e he
  by_cases hinit : os.dbghelpInitOk = true
  case neg =>
    rw [trace_init_failed os arch cb thread (by simpa using hinit)] at he
    simp at he
  case pos =>
  rcases hsc : suspend_thread_and_capture_context os thread with ⟨evs, res⟩
  cases res with
  | none =>
    rw [trace_capture_failed os arch cb thread evs hinit hsc] at he
    have hk := capture_event_not_walk_not_callback os thread e (by rw [hsc]; exact he)
    exact ⟨fun s i g hg => absurd hg (hk.1 s i g),
           fun g r hg => absurd hg (hk.2 g r)⟩
  | some p =>
    rcases p with ⟨ctx, dr⟩
    have hfst : (suspend_thread_and_capture_context os thread).1 = evs := by rw [hsc]
    cases hswe : os.stackWalkExPresent with
    | true =>
      rw [trace_success_modern os arch cb thread evs ctx dr hinit hswe hsc,
        ← hfst] at he
      have hframe : (init_frame arch initialFrameNew ctx).1.isNew = true := by
        rw [init_frame_isNew]
        rfl
      rcases mem_trace_parts os thread Strategy.modern
          (init_frame arch initialFrameNew ctx).2 cb
          (init_frame arch initialFrameNew ctx).1 dr e he with hcapev | hloop | rfl
      · have hk := capture_event_not_walk_not_callback os thread e hcapev
        exact ⟨fun s i g hg => absurd hg (hk.1 s i g),
               fun g r hg => absurd hg (hk.2 g r)⟩
      · rcases walkLoop_mem os Strategy.modern _ cb os.walkSteps _ e hloop with
          ⟨g, hg, hn⟩ | ⟨g, r, hg, hn, _⟩
        · subst hg
          constructor
          · rintro s i g' hEq
            injection hEq with hs' hi' hg'
            subst hs'
            subst hg'
            exact ⟨by simp, by rw [hn, hframe]⟩
          · rintro g' r' hEq
            exact Event.noConfusion hEq
        · subst hg
          constructor
          · rintro s i g' hEq
            exact Event.noConfusion hEq
          · rintro g' r' hEq
            injection hEq with h1 h2
            subst h1
            rw [hn, hframe]
      · exact ⟨fun s i g hg => Event.noConfusion hg,
               fun g r hg => Event.noConfusion hg⟩
    | false =>
      rw [trace_success_legacy os arch cb thread evs ctx dr hinit hswe hsc,
        ← hfst] at he
      have hframe : (init_frame arch initialFrameOld ctx).1.isNew = false := by
        rw [init_frame_isNew]
        rfl
      rcases mem_trace_parts os thread Strategy.legacy
          (init_frame arch initialFrameOld ctx).2 cb
          (init_frame arch initialFrameOld ctx).1 dr e he with hcapev | hloop | rfl
      · have hk := capture_event_not_walk_not_callback os thread e hcapev
        exact ⟨fun s i g hg => absurd hg (hk.1 s i g),
               fun g r hg => absurd hg (hk.2 g r)⟩
      · rcases walkLoop_mem os Strategy.legacy _ cb os.walkSteps _ e hloop with
          ⟨g, hg, hn⟩ | ⟨g, r, hg, hn, _⟩
        · subst hg
          constructor
          · rintro s i g' hEq
            injection hEq with hs' hi' hg'
            subst hs'
            subst hg'
            exact ⟨by simp, by rw [hn, hframe]⟩
          · rintro g' r' hEq
            exact Event.noConfusion hEq
        · subst hg
          constructor
          · rintro s i g' hEq
            exact Event.noConfusion hEq
          · rintro g' r' hEq
            injection hEq with h1 h2
            subst h1
            rw [hn, hframe]
      · exact ⟨fun s i g hg => Event.noConfusion hg,
               fun g r hg => Event.noConfusion hg⟩

/-- Witness for C3: in the concrete trace on `osA` (modern strategy), the
lone stack-walk call carries the modern strategy, the AMD64 machine tag
and a `New`-variant frame. -/
theorem trace_strategy_fixed_witness :
    (Event.stackWalkCall Strategy.modern IMAGE_FILE_MACHINE_AMD64
        (init_frame Arch.x86_64 initialFrameNew osA.capturedContext).1 ∈
      trace osA Arch.x86_64 (fun _ => true) 0) ∧
    ((Strategy.modern = Strategy.modern ↔ osA.stackWalkExPresent = true) ∧
      (init_frame Arch.x86_64 initialFrameNew osA.capturedContext).1.isNew =
        osA.stackWalkExPresent) :=
  ⟨by decide,
   (trace_strategy_fixed osA Arch.x86_64 (fun _ => true) 0 _ (by decide)).1
     Strategy.modern IMAGE_FILE_MACHINE_AMD64
     (init_frame Arch.x86_64 initialFrameNew osA.capturedContext).1 rfl⟩

/-- C4: a `false` callback return terminates the walk loop at once — no
further OS stack-walk call and no further callback invocation occur in the
rest of the trace (`noOsCallsAfterStop`), while the teardown resume of C1
is unaffected (it is quantified over every callback there) — and when the
callback never stops, the walk makes exactly one OS stack-walk call per
successful step plus the single final call on which the OS first reports a
non-`TRUE` result. -/
theorem trace_cancellation (os : OSEnv) (arch : Arch) (cb : Frame → Bool)
    (thread : Nat) :
    noOsCallsAfterStop (trace os arch cb thread) = true ∧
    ((∀ g, cb g = true) → os.dbghelpInitOk = true →
      (suspend_thread_and_capture_context os thread).2 ≠ none →
      countWalkCalls (trace os arch cb thread) = okPrefixLen os.walkSteps + 1) := by
  constructor
  · by_cases hinit : os.dbghelpInitOk = true
    case neg =>
      rw [trace_init_failed os arch cb thread (by simpa using hinit)]
      rfl
    case pos =>
    rcases hsc : suspend_thread_and_capture_context os thread with ⟨evs, res⟩
    have hcw := capture_no_callback_walk os thread
    rw [hsc] at hcw
    cases res with
    | none =>
      rw [trace_capture_failed os arch cb thread evs hinit hsc]
      exact noOsCallsAfterStop_of_no_callbacks evs hcw.1
    | some p =>
      rcases p with ⟨ctx, dr⟩
      have htail1 : countWalkCalls
          (if dr = true then [Event.resumeThreadCall thread] else []) = 0 := by
        cases dr <;> rfl
      have htail2 : countCallback
          (if dr = true then [Event.resumeThreadCall thread] else []) = 0 := by
        cases dr <;> rfl
      have htail3 : noOsCallsAfterStop
          (if dr = true then [Event.resumeThreadCall thread] else []) = true := by
        cases dr <;> rfl
      cases hswe : os.stackWalkExPresent with
      | true =>
        rw [trace_success_modern os arch cb thread evs ctx dr hinit hswe hsc,
          List.append_assoc]
        exact noOsCallsAfterStop_append_left _ _ hcw.1
          (noOsCallsAfterStop_append_right _ _
            (walkLoop_noStop os Strategy.modern _ cb os.walkSteps _)
            htail1 htail2 htail3)
      | false =>
        rw [trace_success_legacy os arch cb thread evs ctx dr hinit hswe hsc,
          List.append_assoc]
        exact noOsCallsAfterStop_append_left _ _ hcw.1
          (noOsCallsAfterStop_append_right _ _
            (walkLoop_noStop os Strategy.legacy _ cb os.walkSteps _)
            htail1 htail2 htail3)
  · intro hcb hinit hres
    rcases hsc : suspend_thread_and_capture_context os thread with ⟨evs, res⟩
    rw [hsc] at hres
    cases res with
    | none => simp at hres
    | some p =>
      rcases p with ⟨ctx, dr⟩
      have hcw := capture_no_callback_walk os thread
      rw [hsc] at hcw
      have htail : countWalkCalls
          (if dr = true then [Event.resumeThreadCall thread] else []) = 0 := by
        cases dr <;> rfl
      cases hswe : os.stackWalkExPresent with
      | true =>
        rw [trace_success_modern os arch cb thread evs ctx dr hinit hswe hsc,
          countWalkCalls_append, countWalkCalls_append, hcw.2, htail,
          walkLoop_count_all_true os Strategy.modern _ cb hcb os.walkSteps _]
        omega
      | false =>
        rw [trace_success_legacy os arch cb thread evs ctx dr hinit hswe hsc,
          countWalkCalls_append, countWalkCalls_append, hcw.2, htail,
          walkLoop_count_all_true os Strategy.legacy _ cb hcb os.walkSteps _]
        omega

/-- Witness for C4: on `osB` (one successful step, then exhaustion) with a
never-stopping callback, the trace makes exactly two stack-walk calls. -/
theorem trace_cancellation_witness :
    noOsCallsAfterStop (trace osB Arch.x86_64 (fun _ => true) 0) = true ∧
    osB.dbghelpInitOk = true ∧
    (suspend_thread_and_capture_context osB 0).2 ≠ none ∧
    countWalkCalls (trace osB Arch.x86_64 (fun _ => true) 0) =
      okPrefixLen osB.walkSteps + 1 :=
  ⟨(trace_cancellation osB Arch.x86_64 (fun _ => true) 0).1, rfl, by decide,
   (trace_cancellation osB Arch.x86_64 (fun _ => true) 0).2
     (fun _ => rfl) rfl (by decide)⟩

/-- C8: every frame handed to the callback carries a `base_address` that
was recomputed, at that very iteration, from the frame's own (new) program
counter via the module-base lookup, in both strategies. -/
theorem trace_base_recomputed (os : OSEnv) (arch : Arch) (cb : Frame → Bool)
    (thread : Nat) :
    ∀ e ∈ trace os arch cb thread, ∀ g r, e = Event.callbackInvoke g r →
      g.base_address = os.moduleBase g.ip := by
  intro e he g r hg
  subst hg
  by_cases hinit : os.dbghelpInitOk = true
  case neg =>
    rw [trace_init_failed os arch cb thread (by simpa using hinit)] at he
    simp at he
  case pos =>
  rcases hsc : suspend_thread_and_capture_context os thread with ⟨evs, res⟩
  cases res with
  | none =>
    rw [trace_capture_failed os arch cb thread evs hinit hsc] at he
    have hk := capture_event_not_walk_not_callback os thread _ (by rw [hsc]; exact he)
    exact absurd rfl (hk.2 g r)
  | some p =>
    rcases p with ⟨ctx, dr⟩
    have hfst : (suspend_thread_and_capture_context os thread).1 = evs := by rw [hsc]
    cases hswe : os.stackWalkExPresent with
    | true =>
      rw [trace_success_modern os arch cb thread evs ctx dr hinit hswe hsc,
        ← hfst] at he
      rcases mem_trace_parts os thread Strategy.modern
          (init_frame arch initialFrameNew ctx).2 cb
          (init_frame arch initialFrameNew ctx).1 dr _ he with hcapev | hloop | hEq
      · have hk := capture_event_not_walk_not_callback os thread _ hcapev
        exact absurd rfl (hk.2 g r)
      · rcases walkLoop_mem os Strategy.modern _ cb os.walkSteps _ _ hloop with
          ⟨g', hg', _⟩ | ⟨g', r', hg', _, hb⟩
        · exact Event.noConfusion hg'
        · injection hg' with h1 h2
          rw [h1]
          exact hb
      · exact Event.noConfusion hEq
    | false =>
      rw [trace_success_legacy os arch cb thread evs ctx dr hinit hswe hsc,
        ← hfst] at he
      rcases mem_trace_parts os thread Strategy.legacy
          (init_frame arch initialFrameOld ctx).2 cb
          (init_frame arch initialFrameOld ctx).1 dr _ he with hcapev | hloop | hEq
      · have hk := capture_event_not_walk_not_callback os thread _ hcapev
        exact absurd rfl (hk.2 g r)
      · rcases walkLoop_mem os Strategy.legacy _ cb os.walkSteps _ _ hloop with
          ⟨g', hg', _⟩ | ⟨g', r', hg', _, hb⟩
        · exact Event.noConfusion hg'
        · injection hg' with h1 h2
          rw [h1]
          exact hb
      · exact Event.noConfusion hEq

/-- Witness for C8: in the concrete trace on `osB`, the frame handed to
the callback after the successful step has program counter 5 and base
address 105, which is `osB.moduleBase 5`. -/
theorem trace_base_recomputed_witness :
    (Event.callbackInvoke
        { walkStepFrame (init_frame Arch.x86_64 initialFrameNew
            osB.capturedContext).1 5 6 7 with base_address := 105 } true ∈
      trace osB Arch.x86_64 (fun _ => true) 0) ∧
    Frame.base_address
        { walkStepFrame (init_frame Arch.x86_64 initialFrameNew
            osB.capturedContext).1 5 6 7 with base_address := 105 } =
      osB.moduleBase
        (Frame.ip { walkStepFrame (init_frame Arch.x86_64 initialFrameNew
            osB.capturedContext).1 5 6 7 with base_address := 105 }) :=
  ⟨by decide,
   trace_base_recomputed osB Arch.x86_64 (fun _ => true) 0 _ (by decide)
     { walkStepFrame (init_frame Arch.x86_64 initialFrameNew
         osB.capturedContext).1 5 6 7 with base_address := 105 } true rfl⟩

end Backtrace
